import Mathlib

/-
Verification development for the cdk-email-analysis pipeline.

The three Lambda modules (src/lambda/email_parser/index.py,
src/lambda/analyze_emails/index.py, src/lambda/slack_notification/index.py)
are shallowly embedded below.  Pure Python functions become Lean functions;
the S3 object store becomes an explicit association list of keys to stored
JSON documents; Python exceptions become an `Except` error monad.  Library
behaviour that the code relies on (json.loads, datetime.fromisoformat,
datetime.isoformat, email.utils.parsedate_to_datetime, the boto3
ListObjectsV2 response shape) is modelled by executable Lean functions that
follow the documented behaviour of those libraries on the data shapes the
pipeline produces.
-/

/-- Python exception kinds that the embedded code can raise.  JSONDecodeError
is represented by `json_loads` returning `none`; the remaining kinds appear
as `Except.error` values. -/
inductive PyErr where
  | keyError
  | typeError
  | valueError
  | noSuchKey
deriving DecidableEq, Repr

/-- JSON documents as produced by Python json.loads.  Numeric literals are
kept as their source token, since the pipeline never computes with numeric
values. -/
inductive Json where
  | null
  | bool (b : Bool)
  | num (tok : String)
  | str (s : String)
  | arr (elems : List Json)
  | obj (fields : List (String × Json))

/-- Dictionary lookup on a JSON object, mirroring Python dict construction
from a key-value sequence: a later binding of the same key wins. -/
def jlookup (fields : List (String × Json)) (k : String) : Option Json :=
  match fields with
  | [] => none
  | (k0, v) :: rest =>
    match jlookup rest k with
    | some v2 => some v2
    | none => if k0 = k then some v else none

/-- Whitespace skipping of the JSON grammar. -/
def skipWs (cs : List Char) : List Char :=
  match cs with
  | c :: rest =>
    if c = ' ' ∨ c = '\t' ∨ c = '\n' ∨ c = '\r' then skipWs rest else c :: rest
  | [] => []

/-- Decimal digit test. -/
def isDig (c : Char) : Bool :=
  '0' ≤ c && c ≤ '9'

/-- Numeric value of a decimal digit character. -/
def digVal (c : Char) : Nat := c.toNat - 48

/-- Hexadecimal digit value, if any. -/
def hexVal (c : Char) : Option Nat :=
  if isDig c then some (digVal c)
  else if 'a' ≤ c ∧ c ≤ 'f' then some (c.toNat - 97 + 10)
  else if 'A' ≤ c ∧ c ≤ 'F' then some (c.toNat - 65 + 10)
  else none

/-- Body of a JSON string literal after the opening quote, accumulating
decoded characters.  Supports the escape sequences of the JSON grammar;
a \u escape is decoded to the code point it names. -/
def parseStrBody (fuel : Nat) (cs : List Char) (acc : List Char) :
    Option (String × List Char) :=
  match fuel, cs with
  | 0, _ => none
  | _, [] => none
  | Nat.succ f, c :: rest =>
    if c = '"' then some (String.mk acc.reverse, rest)
    else if c = '\\' then
      match rest with
      | [] => none
      | e :: rest2 =>
        if e = 'u' then
          match rest2 with
          | h1 :: h2 :: h3 :: h4 :: rest3 =>
            match hexVal h1, hexVal h2, hexVal h3, hexVal h4 with
            | some a, some b, some cc, some d =>
              parseStrBody f rest3 (Char.ofNat (a * 4096 + b * 256 + cc * 16 + d) :: acc)
            | _, _, _, _ => none
          | _ => none
        else
          match
            (if e = '"' then some '"'
             else if e = '\\' then some '\\'
             else if e = '/' then some '/'
             else if e = 'n' then some '\n'
             else if e = 't' then some '\t'
             else if e = 'r' then some '\r'
             else if e = 'b' then some (Char.ofNat 8)
             else if e = 'f' then some (Char.ofNat 12)
             else none) with
          | some ch => parseStrBody f rest2 (ch :: acc)
          | none => none
    else parseStrBody f rest (c :: acc)

/-- Longest run of decimal digits at the front of the input. -/
def takeDigits (cs : List Char) : List Char × List Char :=
  match cs with
  | c :: rest =>
    if isDig c then
      let (ds, r) := takeDigits rest
      (c :: ds, r)
    else ([], cs)
  | [] => ([], cs)

/-- Numeric literal of the JSON grammar, returned as its token text. -/
def parseNum (cs : List Char) : Option (String × List Char) :=
  let (neg, cs1) := match cs with
    | '-' :: r => (['-'], r)
    | _ => (([] : List Char), cs)
  match takeDigits cs1 with
  | ([], _) => none
  | (ds, cs2) =>
    let (frac, cs3) := match cs2 with
      | '.' :: r =>
        (match takeDigits r with
         | ([], _) => (([] : List Char), cs2)
         | (fs, r2) => ('.' :: fs, r2))
      | _ => ([], cs2)
    let (ex, cs4) := match cs3 with
      | e :: r =>
        if e = 'e' ∨ e = 'E' then
          (match r with
           | s :: r2 =>
             if s = '+' ∨ s = '-' then
               (match takeDigits r2 with
                | ([], _) => (([] : List Char), cs3)
                | (es, r3) => (e :: s :: es, r3))
             else
               (match takeDigits r with
                | ([], _) => (([] : List Char), cs3)
                | (es, r3) => (e :: es, r3))
           | [] => ([], cs3))
        else ([], cs3)
      | [] => ([], cs3)
    some (String.mk (neg ++ ds ++ frac ++ ex), cs4)

/-- Parser modes: a single value, the tail of an array, or the tail of an
object.  A single fuel-structural function avoids mutual recursion so that
every run reduces definitionally. -/
inductive PMode where
  | value
  | arrTail
  | objTail

/-- Results of the three parser modes. -/
inductive PRes where
  | value (v : Json) (rest : List Char)
  | arrTail (vs : List Json) (rest : List Char)
  | objTail (fs : List (String × Json)) (rest : List Char)

/-- Recursive core of the JSON grammar, modelling the grammar accepted by
Python json.loads (strict mode, without the NaN and Infinity extensions). -/
def parseCore (fuel : Nat) (mode : PMode) (cs : List Char) : Option PRes :=
  match fuel with
  | 0 => none
  | Nat.succ f =>
    match mode with
    | PMode.value =>
      match skipWs cs with
      | [] => none
      | c :: rest =>
        if c = 'n' then
          match rest with
          | 'u' :: 'l' :: 'l' :: r => some (PRes.value Json.null r)
          | _ => none
        else if c = 't' then
          match rest with
          | 'r' :: 'u' :: 'e' :: r => some (PRes.value (Json.bool true) r)
          | _ => none
        else if c = 'f' then
          match rest with
          | 'a' :: 'l' :: 's' :: 'e' :: r => some (PRes.value (Json.bool false) r)
          | _ => none
        else if c = '"' then
          match parseStrBody (Nat.succ f) rest [] with
          | some (s, r) => some (PRes.value (Json.str s) r)
          | none => none
        else if c = '[' then
          match skipWs rest with
          | ']' :: r => some (PRes.value (Json.arr []) r)
          | _ =>
            match parseCore f PMode.arrTail rest with
            | some (PRes.arrTail vs r) => some (PRes.value (Json.arr vs) r)
            | _ => none
        else if c = '\x7b' then
          match skipWs rest with
          | '\x7d' :: r => some (PRes.value (Json.obj []) r)
          | _ =>
            match parseCore f PMode.objTail rest with
            | some (PRes.objTail fs r) => some (PRes.value (Json.obj fs) r)
            | _ => none
        else if isDig c ∨ c = '-' then
          match parseNum (c :: rest) with
          | some (tok, r) => some (PRes.value (Json.num tok) r)
          | none => none
        else none
    | PMode.arrTail =>
      match parseCore f PMode.value cs with
      | some (PRes.value v r) =>
        (match skipWs r with
         | ',' :: r2 =>
           (match parseCore f PMode.arrTail r2 with
            | some (PRes.arrTail vs r3) => some (PRes.arrTail (v :: vs) r3)
            | _ => none)
         | ']' :: r2 => some (PRes.arrTail [v] r2)
         | _ => none)
      | _ => none
    | PMode.objTail =>
      match skipWs cs with
      | '"' :: rest =>
        (match parseStrBody fuel rest [] with
         | some (k, r) =>
           (match skipWs r with
            | ':' :: r2 =>
              (match parseCore f PMode.value r2 with
               | some (PRes.value v r3) =>
                 (match skipWs r3 with
                  | ',' :: r4 =>
                    (match parseCore f PMode.objTail r4 with
                     | some (PRes.objTail fs r5) => some (PRes.objTail ((k, v) :: fs) r5)
                     | _ => none)
                  | '\x7d' :: r4 => some (PRes.objTail [(k, v)] r4)
                  | _ => none)
               | _ => none)
            | _ => none)
         | none => none)
      | _ => none

/-- Embedding of Python json.loads: parse one JSON document and require
that only whitespace follows it.  A `none` result corresponds to
json.JSONDecodeError. -/
def json_loads (s : String) : Option Json :=
  match parseCore (2 * s.data.length + 2) PMode.value s.data with
  | some (PRes.value v r) => if skipWs r = [] then some v else none
  | _ => none

/-- Timezone-aware (or naive, when `offset = none`) wall-clock datetime,
modelling Python datetime.datetime.  The offset is the UTC offset in
minutes; an IANA zone is modelled by its fixed UTC offset at the instants
involved (historical and DST offset changes are outside the model). -/
structure DateTime where
  year : Nat
  month : Nat
  day : Nat
  hour : Nat
  minute : Nat
  second : Nat
  microsecond : Nat
  offset : Option Int
deriving DecidableEq, Repr

/-- Gregorian leap-year rule, as used by the Python datetime module. -/
def isLeap (y : Nat) : Bool :=
  y % 4 = 0 && (y % 100 ≠ 0 || y % 400 = 0)

/-- Number of days of a month in a year, as validated by the Python
datetime constructor. -/
def daysInMonth (y m : Nat) : Nat :=
  if m = 2 then (if isLeap y then 29 else 28)
  else if m = 4 ∨ m = 6 ∨ m = 9 ∨ m = 11 then 30
  else 31

/-- Range validation performed by the Python datetime and timezone
constructors: year 1..9999, month 1..12, day within the month, time
fields in range, UTC offset strictly within one day.  Every parser that
feeds the constructors applies this check. -/
def validISO (dt : DateTime) : Bool :=
  1 ≤ dt.year && dt.year ≤ 9999 && 1 ≤ dt.month && dt.month ≤ 12 &&
  1 ≤ dt.day && dt.day ≤ daysInMonth dt.year dt.month &&
  dt.hour ≤ 23 && dt.minute ≤ 59 && dt.second ≤ 59 &&
  (dt.offset.getD 0).natAbs ≤ 1439

/-- Range validity of a datetime as enforced by the Python datetime
constructor (year 1..9999, month 1..12, day within the month, time fields
in range, offset strictly within one day). -/
def validDT (dt : DateTime) : Prop :=
  1 ≤ dt.year ∧ dt.year ≤ 9999 ∧ 1 ≤ dt.month ∧ dt.month ≤ 12 ∧
  1 ≤ dt.day ∧ dt.day ≤ daysInMonth dt.year dt.month ∧ dt.hour ≤ 23 ∧
  dt.minute ≤ 59 ∧ dt.second ≤ 59 ∧ dt.microsecond ≤ 999999 ∧
  (dt.offset.getD 0).natAbs ≤ 1439

/-- Decimal digit character for a digit value (values above nine clamp to
the last digit; they never occur on valid inputs). -/
def digitChar (d : Nat) : Char :=
  match d with
  | 0 => '0' | 1 => '1' | 2 => '2' | 3 => '3' | 4 => '4'
  | 5 => '5' | 6 => '6' | 7 => '7' | 8 => '8' | _ => '9'

/-- Inverse of `digitChar` on genuine digits. -/
def digitVal? (c : Char) : Option Nat :=
  if c = '0' then some 0 else if c = '1' then some 1
  else if c = '2' then some 2 else if c = '3' then some 3
  else if c = '4' then some 4 else if c = '5' then some 5
  else if c = '6' then some 6 else if c = '7' then some 7
  else if c = '8' then some 8 else if c = '9' then some 9 else none

/-- Two-digit zero-padded decimal rendering. -/
def digits2 (n : Nat) : List Char :=
  [digitChar (n / 10), digitChar (n % 10)]

/-- Four-digit zero-padded decimal rendering. -/
def digits4 (n : Nat) : List Char :=
  [digitChar (n / 1000), digitChar (n / 100 % 10), digitChar (n / 10 % 10),
   digitChar (n % 10)]

/-- Six-digit zero-padded decimal rendering. -/
def digits6 (n : Nat) : List Char :=
  [digitChar (n / 100000), digitChar (n / 10000 % 10), digitChar (n / 1000 % 10),
   digitChar (n / 100 % 10), digitChar (n / 10 % 10), digitChar (n % 10)]

/-- Exactly two decimal digits. -/
def parse2 (cs : List Char) : Option (Nat × List Char) :=
  match cs with
  | a :: b :: rest =>
    match digitVal? a, digitVal? b with
    | some x, some y => some (x * 10 + y, rest)
    | _, _ => none
  | _ => none

/-- Exactly four decimal digits. -/
def parse4 (cs : List Char) : Option (Nat × List Char) :=
  match cs with
  | a :: b :: c :: d :: rest =>
    match digitVal? a, digitVal? b, digitVal? c, digitVal? d with
    | some x, some y, some z, some w => some (x * 1000 + y * 100 + z * 10 + w, rest)
    | _, _, _, _ => none
  | _ => none

/-- Exactly six decimal digits. -/
def parse6 (cs : List Char) : Option (Nat × List Char) :=
  match cs with
  | a :: b :: c :: d :: e :: f :: rest =>
    match digitVal? a, digitVal? b, digitVal? c, digitVal? d, digitVal? e,
        digitVal? f with
    | some u, some v, some w, some x, some y, some z =>
      some (u * 100000 + v * 10000 + w * 1000 + x * 100 + y * 10 + z, rest)
    | _, _, _, _, _, _ => none
  | _ => none

/-- Consume one expected character. -/
def expectChar (c : Char) (cs : List Char) : Option (List Char) :=
  match cs with
  | c2 :: rest => if c2 = c then some rest else none
  | [] => none

/-- Characters of the ISO-8601 serialization produced by Python
datetime.isoformat: the fractional part is emitted only when the
microsecond field is nonzero, and the UTC offset only on aware values. -/
def isoformatChars (dt : DateTime) : List Char :=
  digits4 dt.year ++ '-' :: digits2 dt.month ++ '-' :: digits2 dt.day ++
    'T' :: digits2 dt.hour ++ ':' :: digits2 dt.minute ++ ':' :: digits2 dt.second ++
    (if dt.microsecond = 0 then [] else '.' :: digits6 dt.microsecond) ++
    (match dt.offset with
     | none => []
     | some off =>
       (if 0 ≤ off then '+' else '-') ::
         (digits2 (off.natAbs / 60) ++ ':' :: digits2 (off.natAbs % 60)))

/-- Embedding of Python datetime.isoformat. -/
def isoformat (dt : DateTime) : String :=
  String.mk (isoformatChars dt)

/-- Character-level core of the ISO-8601 parser: the full
YYYY-MM-DDTHH:MM:SS[.ffffff][+HH:MM] layout emitted by `isoformat`,
before the constructor-level range validation. -/
def fromisoCharsCore (cs : List Char) : Option DateTime := do
  let (y, cs) ← parse4 cs
  let cs ← expectChar '-' cs
  let (mo, cs) ← parse2 cs
  let cs ← expectChar '-' cs
  let (d, cs) ← parse2 cs
  let cs ← expectChar 'T' cs
  let (h, cs) ← parse2 cs
  let cs ← expectChar ':' cs
  let (mi, cs) ← parse2 cs
  let cs ← expectChar ':' cs
  let (s, cs) ← parse2 cs
  let (us, cs) ←
    (match cs with
     | c :: cs2 => if c = '.' then parse6 cs2 else some (0, c :: cs2)
     | [] => some (0, ([] : List Char)))
  match cs with
  | [] => some ⟨y, mo, d, h, mi, s, us, none⟩
  | sign :: cs2 =>
    if sign = '+' ∨ sign = '-' then do
      let (oh, cs3) ← parse2 cs2
      let cs4 ← expectChar ':' cs3
      let (om, cs5) ← parse2 cs4
      match cs5 with
      | [] =>
        let off : Int := (oh * 60 + om : Nat)
        some ⟨y, mo, d, h, mi, s, us, some (if sign = '+' then off else -off)⟩
      | _ => none
    else none

/-- Parse of the full timestamp layout followed by the datetime
constructor range validation, as the library performs it. -/
def fromisoChars (cs : List Char) : Option DateTime := do
  let dt ← fromisoCharsCore cs
  if validISO dt then some dt else none

/-- Embedding of Python datetime.fromisoformat, restricted to the complete
timestamp layout that the pipeline serializes (shorter ISO-8601 forms that
the library also accepts are outside the model and rejected).  A value is
returned only when every component passes the constructor range checks; a
`none` result corresponds to ValueError. -/
def fromisoformat (s : String) : Option DateTime :=
  fromisoChars s.data

/-- Days since 1970-01-01 of a proleptic-Gregorian civil date
(the standard civil-from-days correspondence, floor division form). -/
def daysFromCivil (y m d : Nat) : Int :=
  let yy : Int := (y : Int) - (if m ≤ 2 then 1 else 0)
  let era : Int := Int.fdiv yy 400
  let yoe : Int := yy - era * 400
  let mp : Int := Int.fdiv ((m : Int) + 9) 12 * (-12) + (m : Int) + 9
  let doy : Int := Int.fdiv (153 * mp + 2) 5 + (d : Int) - 1
  let doe : Int := yoe * 365 + Int.fdiv yoe 4 - Int.fdiv yoe 100 + doy
  era * 146097 + doe - 719468

/-- Civil date of a day count since 1970-01-01 (inverse correspondence). -/
def civilFromDays (z : Int) : Nat × Nat × Nat :=
  let z2 := z + 719468
  let era := Int.fdiv z2 146097
  let doe := z2 - era * 146097
  let yoe := Int.fdiv (doe - Int.fdiv doe 1460 + Int.fdiv doe 36524 - Int.fdiv doe 146096) 365
  let y := yoe + era * 400
  let doy := doe - (365 * yoe + Int.fdiv yoe 4 - Int.fdiv yoe 100)
  let mp := Int.fdiv (5 * doy + 2) 153
  let d := doy - Int.fdiv (153 * mp + 2) 5 + 1
  let m := if mp < 10 then mp + 3 else mp - 9
  let y2 := if m ≤ 2 then y + 1 else y
  (y2.toNat, m.toNat, d.toNat)

/-- Seconds since the epoch of a datetime.  A naive value is interpreted
in the system local timezone, as Python astimezone does; the Lambda
runtime fixes the system timezone to UTC, so naive means offset zero. -/
def toEpochSeconds (dt : DateTime) : Int :=
  daysFromCivil dt.year dt.month dt.day * 86400 +
    (dt.hour : Int) * 3600 + (dt.minute : Int) * 60 + (dt.second : Int) -
    dt.offset.getD 0 * 60

/-- Embedding of Python datetime.astimezone to a fixed-offset target zone:
the represented instant is preserved and the wall-clock fields are
recomputed for the target offset (minutes east of UTC). -/
def astimezone (dt : DateTime) (tzOff : Int) : DateTime :=
  let t := toEpochSeconds dt + tzOff * 60
  let days := Int.fdiv t 86400
  let sod := (Int.fmod t 86400).toNat
  match civilFromDays days with
  | (y, m, d) => ⟨y, m, d, sod / 3600, sod % 3600 / 60, sod % 60, dt.microsecond, some tzOff⟩

/-- Helper for Python str.split() with no separator: split on runs of
whitespace, dropping empty pieces. -/
def splitWsAux (cs : List Char) (acc : List Char) : List String :=
  match cs with
  | [] => if acc.isEmpty then [] else [String.mk acc.reverse]
  | c :: rest =>
    if c = ' ' ∨ c = '\t' ∨ c = '\n' ∨ c = '\r' then
      if acc.isEmpty then splitWsAux rest []
      else String.mk acc.reverse :: splitWsAux rest []
    else splitWsAux rest (c :: acc)

/-- Python str.split() on whitespace. -/
def splitWs (s : String) : List String :=
  splitWsAux s.data []

/-- Helper for Python str.split(sep) with a one-character separator: every
occurrence splits, and empty pieces are kept. -/
def splitSepAux (sep : Char) (cs : List Char) (acc : List Char) : List String :=
  match cs with
  | [] => [String.mk acc.reverse]
  | c :: rest =>
    if c = sep then String.mk acc.reverse :: splitSepAux sep rest []
    else splitSepAux sep rest (c :: acc)

/-- Python str.split(sep) with a one-character separator. -/
def splitSep (sep : Char) (s : String) : List String :=
  splitSepAux sep s.data []

/-- Digit run evaluated as a number; empty or non-digit input fails. -/
def pyIntNatAux (cs : List Char) (acc : Nat) : Option Nat :=
  match cs with
  | [] => some acc
  | c :: rest =>
    match digitVal? c with
    | some d => pyIntNatAux rest (acc * 10 + d)
    | none => none

/-- Python int() on an unsigned decimal token. -/
def pyIntNat (cs : List Char) : Option Nat :=
  match cs with
  | [] => none
  | _ => pyIntNatAux cs 0

/-- Python int() on a decimal token with an optional sign. -/
def pyInt (s : String) : Option Int :=
  match s.data with
  | '+' :: rest => (pyIntNat rest).map (fun n => (n : Int))
  | '-' :: rest => (pyIntNat rest).map (fun n => -(n : Int))
  | cs => (pyIntNat cs).map (fun n => (n : Int))

/-- ASCII lowercasing of a token, as Python str.lower() on the ASCII
tokens the date grammar uses. -/
def strLower (s : String) : String :=
  String.mk (s.data.map Char.toLower)

/-- ASCII uppercasing of a token, as Python str.upper() on ASCII. -/
def strUpper (s : String) : String :=
  String.mk (s.data.map Char.toUpper)

/-- Whether a token ends with a comma. -/
def endsComma (s : String) : Bool :=
  match s.data.getLast? with
  | some c => c = ','
  | none => false

/-- The _daynames list of email._parseaddr. -/
def isDayName (s : String) : Bool :=
  s = "mon" ∨ s = "tue" ∨ s = "wed" ∨ s = "thu" ∨ s = "fri" ∨ s = "sat" ∨
    s = "sun"

/-- Index of the first occurrence of a string in a list. -/
def idxOf (l : List String) (x : String) : Option Nat :=
  match l with
  | [] => none
  | a :: rest => if a = x then some 0 else (idxOf rest x).map (fun i => i + 1)

/-- The _monthnames list of email._parseaddr: the abbreviated names
followed by the full names. -/
def monthNames : List String :=
  ["jan", "feb", "mar", "apr", "may", "jun", "jul", "aug", "sep", "oct",
   "nov", "dec", "january", "february", "march", "april", "may", "june",
   "july", "august", "september", "october", "november", "december"]

/-- Month number of a lowercased month token: the index in _monthnames
plus one, reduced by twelve for the full names. -/
def monthNum (m : String) : Option Nat :=
  (idxOf monthNames m).map (fun i =>
    let n := i + 1
    if n > 12 then n - 12 else n)

/-- The _timezones table of email._parseaddr, giving offsets in the signed
HHMM encoding. -/
def tzTable (z : String) : Option Int :=
  if z = "UT" ∨ z = "UTC" ∨ z = "GMT" ∨ z = "Z" then some 0
  else if z = "AST" then some (-400)
  else if z = "ADT" then some (-300)
  else if z = "EST" then some (-500)
  else if z = "EDT" then some (-400)
  else if z = "CST" then some (-600)
  else if z = "CDT" then some (-500)
  else if z = "MST" then some (-700)
  else if z = "MDT" then some (-600)
  else if z = "PST" then some (-800)
  else if z = "PDT" then some (-700)
  else none

/-- First index of a character in a character list. -/
def charIdx (c : Char) (cs : List Char) : Option Nat :=
  match cs with
  | [] => none
  | a :: rest => if a = c then some 0 else (charIdx c rest).map (fun i => i + 1)

/-- The part of a token after its last comma (the token itself when it has
none), as Python s[s.rfind(',')+1:]. -/
def afterLastComma (s : String) : String :=
  ((splitSep ',' s).getLast?).getD s

/-- Trailing-comma strip applied by _parsedate_tz to several tokens. -/
def stripComma (s : String) : String :=
  if endsComma s then String.mk s.data.dropLast else s

/-- Whether a token starts with a decimal digit. -/
def startsDigit (s : String) : Bool :=
  match s.data with
  | c :: _ => isDig c
  | [] => false

/-- Nonnegative integer required by the datetime constructor: a negative
component fails validation. -/
def toNatF (i : Int) : Option Nat :=
  if 0 ≤ i then some i.toNat else none

/-- The HH:MM[:SS] (or dotted HH.MM[.SS]) time token of _parsedate_tz. -/
def parseTimeTok (tm : String) : Option (Int × Int × Int) :=
  match splitSep ':' tm with
  | [a, b] => do
    let x ← pyInt a
    let y ← pyInt b
    some (x, y, (0 : Int))
  | [a, b, c] => do
    let x ← pyInt a
    let y ← pyInt b
    let z ← pyInt c
    some (x, y, z)
  | [a] =>
    (match splitSep '.' a with
     | [u, v] => do
       let x ← pyInt u
       let y ← pyInt v
       some (x, y, (0 : Int))
     | [u, v, w] => do
       let x ← pyInt u
       let y ← pyInt v
       let z ← pyInt w
       some (x, y, z)
     | _ => none)
  | _ => none

/-- Field assembly of _parsedate_tz after tokenization, followed by the
datetime and timezone constructor checks of parsedate_to_datetime. -/
def parsedateFields (dd0 mm0 yy0 tm0 tz0 : String) : Option DateTime := do
  let ddmm ←
    (match monthNum (strLower mm0) with
     | some m => some (dd0, m)
     | none =>
       match monthNum (strLower dd0) with
       | some m => some (strLower mm0, m)
       | none => none)
  let dd1 := stripComma ddmm.1
  let mon := ddmm.2
  let ddI ← pyInt dd1
  let yytm :=
    (match charIdx ':' yy0.data with
     | some i => if 0 < i then (tm0, yy0) else (yy0, tm0)
     | none => (yy0, tm0))
  let yy1 := stripComma yytm.1
  let yytz := if startsDigit yy1 then (yy1, tz0) else (tz0, yy1)
  let tm1 := stripComma yytm.2
  let yyI ← pyInt yytz.1
  let tz1 := yytz.2
  let tparts ← parseTimeTok tm1
  -- two-digit year window of _parsedate_tz
  let yyW : Int := if yyI < 100 then (if yyI > 68 then yyI + 1900 else yyI + 2000) else yyI
  let y ← toNatF yyW
  let dday ← toNatF ddI
  let hh ← toNatF tparts.1
  let mi ← toNatF tparts.2.1
  let ss ← toNatF tparts.2.2
  -- zone: a known name, a signed HHMM number, or otherwise a naive result
  let tzoffRaw : Option Int :=
    (match tzTable (strUpper tz1) with
     | some v => some v
     | none => pyInt tz1)
  let off : Option Int :=
    tzoffRaw.map (fun v =>
      let a := v.natAbs
      let m : Int := ((a / 100) * 60 + a % 100 : Nat)
      if v < 0 then -m else m)
  let dt : DateTime := ⟨y, mon, dday, hh, mi, ss, 0, off⟩
  if validISO dt then some dt else none

/-- Embedding of email.utils.parsedate_to_datetime, following the token
algorithm of email._parseaddr._parsedate_tz: split on whitespace, drop an
optional day-of-week token, normalize the deprecated RFC 850 dashed date
and a zone glued onto the time token, then read day, month name, year
(with the two-digit window), HH:MM[:SS] time and zone.  A missing or
unrecognized zone yields a naive result rather than an error; a known
zone name or signed HHMM number yields that fixed offset.  The datetime
and timezone constructor range checks of parsedate_to_datetime are
applied to the result.  A `none` result corresponds to the ValueError
the library raises on an unparsable header or out-of-range component. -/
def parsedate_to_datetime (s : String) : Option DateTime := do
  let data0 := splitWs s
  let data1 ←
    (match data0 with
     | [] => none
     | d0 :: rest =>
       if endsComma d0 ∨ isDayName (strLower d0) then some rest
       else some (afterLastComma d0 :: rest))
  let data2 :=
    (match data1 with
     | [a, b, c] =>
       (match splitSep '-' a with
        | [x, y2, z] => [x, y2, z, b, c]
        | _ => [a, b, c])
     | _ => data1)
  let data3 :=
    (match data2 with
     | [a, b, c, d] =>
       (match
          (match charIdx '+' d.data with
           | some i => some i
           | none => charIdx '-' d.data) with
        | some i =>
          if 0 < i then
            [a, b, c, String.mk (d.data.take i), String.mk (d.data.drop i)]
          else [a, b, c, d, ""]
        | none => [a, b, c, d, ""])
     | _ => data2)
  match data3.take 5 with
  | [dd0, mm0, yy0, tm0, tz0] => parsedateFields dd0 mm0 yy0 tm0 tz0
  | _ => none

/-- The S3 bucket as an association list from object keys to the stored
JSON documents.  The JSON serialization boundary of put_object/get_object
(json.dumps on write, json.loads on read, both from the standard library)
round-trips the document and is elided: the store holds the document
itself. -/
abbrev S3Store : Type := List (String × Json)

/-- List-prefix test on characters, the key-prefix semantics of the S3
ListObjectsV2 Prefix parameter. -/
def listStarts (p cs : List Char) : Bool :=
  match p, cs with
  | [], _ => true
  | _ :: _, [] => false
  | a :: ps, b :: rest => a = b && listStarts ps rest

/-- Keys of the stored objects matching a key prefix. -/
def keysWithPfx (store : S3Store) (pfx : String) : List String :=
  (store.filter (fun kv => listStarts pfx.data kv.1.data)).map (fun kv => kv.1)

/-- The Contents entry of a boto3 ListObjectsV2 response: per the S3 API,
the field is omitted (here `none`) when no keys match the prefix, and
holds the matching keys otherwise. -/
def list_objects_v2 (store : S3Store) (pfx : String) : Option (List String) :=
  match keysWithPfx store pfx with
  | [] => none
  | ks => some ks

/-- Stored document at a key, if present. -/
def get_object (store : S3Store) (key : String) : Option Json :=
  (store.find? (fun kv => kv.1 == key)).map (fun kv => kv.2)

namespace EmailParser

/-- Tag-stripping state machine over the markup text: characters between
an opening `<` and the matching `>` are dropped, everything else is data.
This models the concatenation of data chunks the HTMLStripper subclass
collects from html.parser.HTMLParser on markup made of plain tags and
text (entity references, comments and doctype constructs are outside the
model). -/
def stripChars (cs : List Char) (inTag : Bool) : List Char :=
  match cs with
  | [] => []
  | c :: rest =>
    if inTag then
      if c = '>' then stripChars rest false else stripChars rest true
    else
      if c = '<' then stripChars rest true else c :: stripChars rest false

/-- Embedding of strip_html: feed the markup to the stripper and return the
concatenated data. -/
def strip_html (s : String) : String :=
  String.mk (stripChars s.data false)

/-- One leaf part of a multipart message: its content type and its
charset-decoded text (the get_payload(decode=True).decode(charset) step is
modelled by carrying the decoded text directly). -/
structure RawPart where
  ctype : String
  text : String
deriving DecidableEq, Repr

/-- Message content: either a single body or a list of parts in
declaration order, as iterated by EmailMessage.iter_parts. -/
inductive MimeContent where
  | single (ctype : String) (text : String)
  | multipart (parts : List RawPart)
deriving DecidableEq, Repr

/-- A raw message as seen by read_email after BytesParser: the subject and
from headers, the optional raw date header, and the content tree. -/
structure RawEmail where
  subject : String
  from_ : String
  dateHeader : Option String
  content : MimeContent
deriving DecidableEq, Repr

/-- The extracted record (the Email dataclass of email_parser/index.py). -/
structure Email where
  id : String
  subject : String
  from_ : String
  date : DateTime
  body : String
deriving DecidableEq, Repr

/-- Loop body of _get_email_body over the parts of a multipart message: a
text/plain part is taken verbatim and ends the scan; a text/html part
overwrites the current selection with its stripped text and the scan
continues; other parts are skipped. -/
def bodyLoop (parts : List RawPart) (body : Option String) : Option String :=
  match parts with
  | [] => body
  | p :: rest =>
    if p.ctype = "text/plain" then some p.text
    else if p.ctype = "text/html" then bodyLoop rest (some (strip_html p.text))
    else bodyLoop rest body

/-- Embedding of EmailParser._get_email_body: body selection over the
content, raising ValueError when no text/plain or text/html content
exists. -/
def get_email_body (content : MimeContent) : Except PyErr String :=
  let body : Option String :=
    match content with
    | MimeContent.multipart parts => bodyLoop parts none
    | MimeContent.single ctype text =>
      if ctype = "text/plain" then some text
      else if ctype = "text/html" then some (strip_html text)
      else none
  match body with
  | some b => Except.ok b
  | none => Except.error PyErr.valueError

/-- Decoded text of the first text/plain part of the content, in
declaration order: the part that body selection takes verbatim whenever
one exists. -/
def firstPlainText (content : MimeContent) : Option String :=
  match content with
  | MimeContent.single ctype text =>
    if ctype = "text/plain" then some text else none
  | MimeContent.multipart parts =>
    (parts.find? (fun q => q.ctype == "text/plain")).map (fun q => q.text)

/-- Embedding of EmailParser._get_email_date: an absent date header makes
parsedate_to_datetime raise TypeError, an unparsable one ValueError; a
parsed header is converted to the configured timezone (modelled by its
offset in minutes). -/
def get_email_date (hdr : Option String) (tzOff : Int) : Except PyErr DateTime :=
  match hdr with
  | none => Except.error PyErr.typeError
  | some s =>
    match parsedate_to_datetime s with
    | none => Except.error PyErr.valueError
    | some d => Except.ok (astimezone d tzOff)

/-- Embedding of EmailParser.read_email after the raw message has been
fetched and parsed: the date is computed before the body, as in the Email
constructor call, so a malformed date fails the extraction first. -/
def read_email (emailId : String) (raw : RawEmail) (tzOff : Int) :
    Except PyErr Email := do
  let d ← get_email_date raw.dateHeader tzOff
  let b ← get_email_body raw.content
  Except.ok ⟨emailId, raw.subject, raw.from_, d, b⟩

/-- The JSON document write_email serializes for a record. -/
def emailDoc (e : Email) : Json :=
  Json.obj
    [("id", Json.str e.id), ("subject", Json.str e.subject),
     ("from", Json.str e.from_), ("date", Json.str (isoformat e.date)),
     ("body", Json.str e.body)]

/-- Decimal rendering of a number, as Python str on an int. -/
def natDec (n : Nat) : String :=
  String.mk (Nat.toDigits 10 n)

/-- Day-partition key prefix `{base}/{year}/{month}/{day}/` shared by
write_email and the analyze-stage listing. -/
def dayPfx (base : String) (dt : DateTime) : String :=
  base ++ "/" ++ natDec dt.year ++ "/" ++ natDec dt.month ++ "/" ++
    natDec dt.day ++ "/"

/-- Object key of a record, `{base}/{year}/{month}/{day}/{id}.json`, built
from the localized timestamp. -/
def emailKey (base : String) (e : Email) : String :=
  dayPfx base e.date ++ (e.id ++ ".json")

/-- Embedding of EmailParser.write_email: put_object of the serialized
record at its partition key. -/
def write_email (base : String) (store : S3Store) (e : Email) : S3Store :=
  store ++ [(emailKey base e, emailDoc e)]

end EmailParser

namespace AnalyzeEmails

/-- The Email dataclass of analyze_emails/index.py, rebuilt from a stored
JSON document.  The id, subject, from and body fields hold whatever JSON
value the document carries (the dataclass does not validate them); only
the date field is forced through datetime.fromisoformat. -/
structure Email where
  id : Json
  subject : Json
  from_ : Json
  date : DateTime
  body : Json

/-- The EmailSummary dataclass built from one element of the model output;
field values are whatever JSON values the element carries. -/
structure EmailSummary where
  subject : Json
  date : Json
  from_ : Json
  summary : Json

/-- The Message dataclass: the outcome of one summarization batch. -/
structure Message where
  success : Bool
  emails : List EmailSummary
  error : Option String

/-- Embedding of dataclasses.asdict on an EmailSummary: the dictionary is
keyed by the field names, so the from field serializes under the key
written `from_`. -/
def EmailSummary.asdict (e : EmailSummary) : Json :=
  Json.obj
    [("subject", e.subject), ("date", e.date), ("from_", e.from_),
     ("summary", e.summary)]

/-- Embedding of Message.asdict: the success flag plus either the emails
list (on success) or the error value. -/
def Message.asdict (m : Message) : Json :=
  Json.obj
    (("success", Json.bool m.success) ::
      (if m.success then
        [("emails", Json.arr (m.emails.map EmailSummary.asdict))]
      else
        [("error", match m.error with
                   | some s => Json.str s
                   | none => Json.null)]))

/-- Python subscription `value[k]` on a JSON value with a string key: a
dictionary looks the key up and raises KeyError when absent; any other
value raises TypeError. -/
def getField (v : Json) (k : String) : Except PyErr Json :=
  match v with
  | Json.obj fs =>
    match jlookup fs k with
    | some w => Except.ok w
    | none => Except.error PyErr.keyError
  | _ => Except.error PyErr.typeError

/-- Python iteration over a JSON value: an array yields its elements, a
string its characters, a dictionary its keys; other values raise
TypeError. -/
def pyIter (v : Json) : Except PyErr (List Json) :=
  match v with
  | Json.arr xs => Except.ok xs
  | Json.str s => Except.ok (s.data.map (fun c => Json.str (String.mk [c])))
  | Json.obj fs => Except.ok (fs.map (fun kv => Json.str kv.1))
  | _ => Except.error PyErr.typeError

/-- One element of the comprehension in request_message: the four required
fields are read in the order of the EmailSummary constructor call. -/
def mkSummary (e : Json) : Except PyErr EmailSummary := do
  let s ← getField e "subject"
  let d ← getField e "date"
  let f ← getField e "from"
  let m ← getField e "summary"
  Except.ok ⟨s, d, f, m⟩

/-- Embedding of request_message after the model call: the transport is
abstracted by the completion text the model returned.  The forced
assistant prefix is prepended back onto the completion, the result is
parsed, and only JSONDecodeError and KeyError are converted into the
Failure outcome; every other exception propagates out of the handler. -/
def request_message (completion : String) : Except PyErr Message :=
  let response_text := "[" ++ completion
  match json_loads response_text with
  | none =>
    Except.ok ⟨false, [], some ("Failed to parse response: " ++ response_text)⟩
  | some j =>
    match (do
        let items ← pyIter j
        items.mapM mkSummary : Except PyErr (List EmailSummary)) with
    | Except.ok summaries => Except.ok ⟨true, summaries, none⟩
    | Except.error PyErr.keyError =>
      Except.ok ⟨false, [], some ("Failed to parse response: " ++ response_text)⟩
    | Except.error e => Except.error e

/-- Reconstruction of one Email from a stored document, in the evaluation
order of the Email constructor call inside get_emails. -/
def parseStoredEmail (doc : Json) : Except PyErr Email := do
  let i ← getField doc "id"
  let s ← getField doc "subject"
  let f ← getField doc "from"
  let dJ ← getField doc "date"
  let d ←
    (match dJ with
     | Json.str ds =>
       (match fromisoformat ds with
        | some d => Except.ok d
        | none => Except.error PyErr.valueError)
     | _ => Except.error PyErr.typeError)
  let b ← getField doc "body"
  Except.ok ⟨i, s, f, d, b⟩

/-- Embedding of get_emails: list the day partition and read every listed
object.  Indexing the ListObjectsV2 response with "Contents" raises
KeyError when the field is absent, which is exactly the empty-prefix
case. -/
def get_emails (store : S3Store) (path : String) : Except PyErr (List Email) :=
  match list_objects_v2 store path with
  | none => Except.error PyErr.keyError
  | some keys =>
    keys.mapM (fun k =>
      match get_object store k with
      | none => Except.error PyErr.noSuchKey
      | some doc => parseStoredEmail doc)

/-- Embedding of lambda_handler for the analyze stage.  The day prefix
(from the event override or the previous local day) is the `path`
argument; the model transport is abstracted by the completion text.  The
returned list holds the outcome payloads published to the topic by
send_to_topic: empty when the handler returns without publishing. -/
def lambda_handler (store : S3Store) (path : String) (completion : String) :
    Except PyErr (List Message) := do
  let emails ← get_emails store path
  if emails.isEmpty then
    Except.ok []
  else do
    let msg ← request_message completion
    if msg.success && msg.emails.isEmpty then
      Except.ok []
    else
      Except.ok [msg]

end AnalyzeEmails

namespace SlackNotification

/-- The EmailSummary dataclass of slack_notification/index.py as typed by
its annotations: one summary entry carried by a successful outcome. -/
structure EmailSummary where
  subject : String
  date : String
  from_ : String
  summary : String
deriving DecidableEq, Repr

/-- Rendering of strftime with format `%Y/%m/%d %H:%M`. -/
def strftimeYmdHM (dt : DateTime) : String :=
  String.mk
    (digits4 dt.year ++ '/' :: digits2 dt.month ++ '/' :: digits2 dt.day ++
      ' ' :: digits2 dt.hour ++ ':' :: digits2 dt.minute)

/-- A Slack section block with mrkdwn text. -/
def mrkdwnSection (text : String) : Json :=
  Json.obj
    [("type", Json.str "section"),
     ("text", Json.obj [("type", Json.str "mrkdwn"), ("text", Json.str text)])]

/-- The fixed header block of a success notification. -/
def headerBlock : Json :=
  mrkdwnSection ":email: 新しいメールが見つかりました"

/-- The blocks generated for one summary entry: a divider, the bold
subject, the reformatted date next to the sender, and the summary text.
Reformatting the date calls datetime.fromisoformat, which raises
ValueError on a string it does not accept. -/
def emailBlocks (e : EmailSummary) : Except PyErr (List Json) :=
  match fromisoformat e.date with
  | none => Except.error PyErr.valueError
  | some dt =>
    Except.ok
      [Json.obj [("type", Json.str "divider")],
       mrkdwnSection ("*" ++ e.subject ++ "*"),
       Json.obj
         [("type", Json.str "section"),
          ("fields",
           Json.arr
             [Json.obj
                [("type", Json.str "mrkdwn"),
                 ("text", Json.str (strftimeYmdHM dt))],
              Json.obj
                [("type", Json.str "mrkdwn"), ("text", Json.str e.from_)]])],
       Json.obj
         [("type", Json.str "section"),
          ("text",
           Json.obj
             [("type", Json.str "plain_text"), ("text", Json.str e.summary),
              ("emoji", Json.bool true)])]]

/-- Embedding of generate_payload: the header block followed by the blocks
of each summary entry in order. -/
def generate_payload (emails : List EmailSummary) : Except PyErr Json := do
  let blockLists ← emails.mapM emailBlocks
  Except.ok (Json.obj [("blocks", Json.arr (headerBlock :: blockLists.flatten))])

/-- Embedding of send_error_message viewed as a renderer: the payload it
posts for a failure outcome.  It is built by plain string formatting and
has no failure mode. -/
def errorPayload (error : String) : Json :=
  Json.obj [("text", Json.str ("Error: " ++ error))]

end SlackNotification

/-- Object test on a JSON value (Python isinstance of dict). -/
def isObj (v : Json) : Bool :=
  match v with
  | Json.obj _ => true
  | _ => false

/-- Whether a JSON value is an object carrying all four required summary
fields. -/
def hasAllFields (v : Json) : Bool :=
  match v with
  | Json.obj fs =>
    (jlookup fs "subject").isSome && (jlookup fs "date").isSome &&
      (jlookup fs "from").isSome && (jlookup fs "summary").isSome
  | _ => false

/-- Key list of a JSON object. -/
def objKeys (v : Json) : List String :=
  match v with
  | Json.obj fs => fs.map (fun kv => kv.1)
  | _ => []

example : parsedate_to_datetime "Mon, 1 Jan 2024 10:30:00 +0900" =
    some ⟨2024, 1, 1, 10, 30, 0, 0, some 540⟩ := rfl

example : parsedate_to_datetime "not a date" = none := rfl

example : parsedate_to_datetime "1 Jan 2024 10:30:00 GMT" =
    some ⟨2024, 1, 1, 10, 30, 0, 0, some 0⟩ := rfl

example : parsedate_to_datetime "1 Jan 99 10:30:00 -0500" =
    some ⟨1999, 1, 1, 10, 30, 0, 0, some (-300)⟩ := rfl

example : parsedate_to_datetime "32 Jan 2024 10:30:00 +0000" = none := rfl

example : fromisoformat "2024-01-01T10:30:00+09:00" =
    some ⟨2024, 1, 1, 10, 30, 0, 0, some 540⟩ := rfl

example : fromisoformat "2024-01-32T10:30:00" = none := rfl

example : fromisoformat "2023-02-29T10:30:00+00:00" = none := rfl

example : fromisoformat "2024-02-29T10:30:00+00:00" =
    some ⟨2024, 2, 29, 10, 30, 0, 0, some 0⟩ := rfl

example : fromisoformat "x" = none := rfl

example : isoformat ⟨2024, 1, 1, 10, 30, 0, 0, some 540⟩ =
    "2024-01-01T10:30:00+09:00" := rfl

example : astimezone ⟨2024, 1, 1, 0, 30, 0, 0, some 540⟩ 0 =
    ⟨2023, 12, 31, 15, 30, 0, 0, some 0⟩ := rfl

example : json_loads "[]" = some (Json.arr []) := rfl

example : json_loads " [1, \"a\"] " =
    some (Json.arr [Json.num "1", Json.str "a"]) := rfl

example : json_loads "[\x7b\"k\": null\x7d]" =
    some (Json.arr [Json.obj [("k", Json.null)]]) := rfl

example : json_loads "[oops" = none := rfl

example : json_loads "[5,\x7b\x7d]" =
    some (Json.arr [Json.num "5", Json.obj []]) := rfl

example : EmailParser.strip_html "<p>hi <b>there</b></p>" = "hi there" := rfl

example :
    AnalyzeEmails.request_message "oops" =
      Except.ok ⟨false, [], some "Failed to parse response: [oops"⟩ := rfl

example :
    AnalyzeEmails.request_message
        "\x7b\"subject\":\"s\",\"date\":\"d\",\"from\":\"f\",\"summary\":\"m\"\x7d]" =
      Except.ok
        ⟨true, [⟨Json.str "s", Json.str "d", Json.str "f", Json.str "m"⟩], none⟩ :=
  rfl

example :
    AnalyzeEmails.request_message "5]" = Except.error PyErr.typeError := rfl

example :
    AnalyzeEmails.request_message "\x7b\x7d]" =
      Except.ok ⟨false, [], some "Failed to parse response: [\x7b\x7d]"⟩ := rfl

theorem exbind_ok {ε α β : Type} (a : α) (f : α → Except ε β) :
    (Except.ok a : Except ε α) >>= f = f a := rfl

theorem exbind_err {ε α β : Type} (e : ε) (f : α → Except ε β) :
    (Except.error e : Except ε α) >>= f = Except.error e := rfl

theorem mkSummary_ok_of_hasAllFields (v : Json) (h : hasAllFields v = true) :
    ∃ s, AnalyzeEmails.mkSummary v = Except.ok s := by
  cases v with
  | obj fs =>
    simp only [hasAllFields, Bool.and_eq_true, Option.isSome_iff_exists] at h
    obtain ⟨⟨⟨⟨a, ha⟩, ⟨b, hb⟩⟩, ⟨c, hc⟩⟩, ⟨d, hd⟩⟩ := h
    refine ⟨⟨a, b, c, d⟩, ?_⟩
    simp only [AnalyzeEmails.mkSummary, AnalyzeEmails.getField, ha, hb, hc, hd]
    rfl
  | null => simp [hasAllFields] at h
  | bool b => simp [hasAllFields] at h
  | num t => simp [hasAllFields] at h
  | str s => simp [hasAllFields] at h
  | arr xs => simp [hasAllFields] at h

theorem mkSummary_keyError (v : Json) (ho : isObj v = true)
    (h : hasAllFields v = false) :
    AnalyzeEmails.mkSummary v = Except.error PyErr.keyError := by
  cases v with
  | obj fs =>
    cases hs : jlookup fs "subject" with
    | none =>
      simp only [AnalyzeEmails.mkSummary, AnalyzeEmails.getField, hs]
      rfl
    | some a =>
      cases hd : jlookup fs "date" with
      | none =>
        simp only [AnalyzeEmails.mkSummary, AnalyzeEmails.getField, hs, hd]
        rfl
      | some b =>
        cases hf : jlookup fs "from" with
        | none =>
          simp only [AnalyzeEmails.mkSummary, AnalyzeEmails.getField, hs, hd, hf]
          rfl
        | some c =>
          cases hm : jlookup fs "summary" with
          | none =>
            simp only [AnalyzeEmails.mkSummary, AnalyzeEmails.getField, hs, hd,
              hf, hm]
            rfl
          | some d => simp [hasAllFields, hs, hd, hf, hm] at h
  | null => simp [isObj] at ho
  | bool b => simp [isObj] at ho
  | num t => simp [isObj] at ho
  | str s => simp [isObj] at ho
  | arr xs => simp [isObj] at ho

theorem mkSummary_typeError (v : Json) (ho : isObj v = false) :
    AnalyzeEmails.mkSummary v = Except.error PyErr.typeError := by
  cases v <;> simp_all [isObj, AnalyzeEmails.mkSummary, AnalyzeEmails.getField,
    exbind_err]

theorem mapM_mkSummary_keyError (pre rest : List Json) (bad : Json)
    (hpre : ∀ e ∈ pre, isObj e = true ∧ hasAllFields e = true)
    (hbadO : isObj bad = true) (hbadF : hasAllFields bad = false) :
    (pre ++ bad :: rest).mapM AnalyzeEmails.mkSummary =
      Except.error PyErr.keyError := by
  induction pre with
  | nil =>
    rw [List.nil_append, List.mapM_cons, mkSummary_keyError bad hbadO hbadF]
    rfl
  | cons x xs ih =>
    rw [List.cons_append, List.mapM_cons]
    obtain ⟨s, hs⟩ := mkSummary_ok_of_hasAllFields x (hpre x (by simp)).2
    rw [hs, exbind_ok, ih (fun e he => hpre e (List.mem_cons_of_mem _ he))]
    rfl

theorem mapM_mkSummary_typeError (pre rest : List Json) (bad : Json)
    (hpre : ∀ e ∈ pre, isObj e = true ∧ hasAllFields e = true)
    (hbad : isObj bad = false) :
    (pre ++ bad :: rest).mapM AnalyzeEmails.mkSummary =
      Except.error PyErr.typeError := by
  induction pre with
  | nil =>
    rw [List.nil_append, List.mapM_cons, mkSummary_typeError bad hbad]
    rfl
  | cons x xs ih =>
    rw [List.cons_append, List.mapM_cons]
    obtain ⟨s, hs⟩ := mkSummary_ok_of_hasAllFields x (hpre x (by simp)).2
    rw [hs, exbind_ok, ih (fun e he => hpre e (List.mem_cons_of_mem _ he))]
    rfl

/-- Claim C1 (code_bug).  The claim states that a day whose partition holds
zero records makes the summarization invocation a deliberate no-op with no
error.  In the code, get_emails indexes the ListObjectsV2 response with
"Contents"; the S3 API omits that field when the prefix matches no keys,
so an empty day raises KeyError before the empty-list check in
lambda_handler can run: listing does not succeed, and an error is
raised. -/
theorem c1_empty_day_raises_keyError :
    AnalyzeEmails.get_emails ([] : S3Store) "emails/json/2024/1/1/" =
        Except.error PyErr.keyError ∧
      AnalyzeEmails.lambda_handler ([] : S3Store) "emails/json/2024/1/1/" "x" =
        Except.error PyErr.keyError :=
  ⟨rfl, rfl⟩

/-- Claim C2 (counterexample).  At completion `5,{}]` the reconstructed
text `[5,{}]` is valid JSON and its element `{}` is missing every required
field, yet summarize does not return the Failure outcome: element 5 is hit
first and its subscription raises an uncaught TypeError. -/
theorem c2_counterexample :
    json_loads ("[" ++ "5,\x7b\x7d]") =
        some (Json.arr [Json.num "5", Json.obj []]) ∧
      hasAllFields (Json.obj []) = false ∧
      AnalyzeEmails.request_message "5,\x7b\x7d]" =
        Except.error PyErr.typeError :=
  ⟨rfl, rfl, rfl⟩

/-- Claim C2 (amended).  For every model completion, summarize prepends the
forced prefix "[" to form the reconstructed text, and if the reconstructed
text is not valid JSON, or some array element is an object missing one of
the four required fields (subject, date, from, summary) and every element
preceding the first such object is an object carrying all four fields,
summarize returns Failure whose reason is exactly
"Failed to parse response: " followed by the entire reconstructed raw
text, with no list of items. -/
theorem c2_failure_outcome (completion : String)
    (h : json_loads ("[" ++ completion) = none ∨
      ∃ pre bad rest,
        json_loads ("[" ++ completion) = some (Json.arr (pre ++ bad :: rest)) ∧
        (∀ e ∈ pre, isObj e = true ∧ hasAllFields e = true) ∧
        isObj bad = true ∧ hasAllFields bad = false) :
    AnalyzeEmails.request_message completion =
      Except.ok
        ⟨false, [], some ("Failed to parse response: " ++ ("[" ++ completion))⟩ := by
  rcases h with h | ⟨pre, bad, rest, hp, hpre, hbadO, hbadF⟩
  · simp only [AnalyzeEmails.request_message, h]
  · simp only [AnalyzeEmails.request_message, hp, AnalyzeEmails.pyIter,
      exbind_ok, mapM_mkSummary_keyError pre rest bad hpre hbadO hbadF]

/-- Claim C2 (witness): a missing-field object placed before a non-object
element yields the Failure outcome embedding the reconstructed text, and
so does an unparsable completion. -/
theorem c2_failure_outcome_witness :
    AnalyzeEmails.request_message "\x7b\x7d,true]" =
        Except.ok
          ⟨false, [],
            some ("Failed to parse response: " ++ ("[" ++ "\x7b\x7d,true]"))⟩ ∧
      AnalyzeEmails.request_message "oops" =
        Except.ok
          ⟨false, [], some ("Failed to parse response: " ++ ("[" ++ "oops"))⟩ :=
  ⟨c2_failure_outcome "\x7b\x7d,true]"
      (Or.inr ⟨[], Json.obj [], [Json.bool true], rfl, by simp, rfl, rfl⟩),
    c2_failure_outcome "oops" (Or.inl rfl)⟩

/-- Claim C10 (counterexample).  At completion `{},5]` the reconstructed
text `[{},5]` is a valid JSON array containing the non-object element 5,
yet the invocation does not terminate with a propagated exception: the
object `{}` is scanned first, its missing field raises KeyError, and
summarize returns the Failure outcome. -/
theorem c10_counterexample :
    json_loads ("[" ++ "\x7b\x7d,5]") =
        some (Json.arr [Json.obj [], Json.num "5"]) ∧
      isObj (Json.num "5") = false ∧
      AnalyzeEmails.request_message "\x7b\x7d,5]" =
        Except.ok ⟨false, [], some "Failed to parse response: [\x7b\x7d,5]"⟩ :=
  ⟨rfl, rfl, rfl⟩

/-- Claim C10 (amended).  For every model completion whose reconstructed
text parses as a valid JSON array containing a non-object element such
that every element before the first such element is an object carrying all
four required fields, summarize returns neither Success nor Failure: the
invocation terminates with a propagated TypeError. -/
theorem c10_type_error_propagates (completion : String) (pre rest : List Json)
    (bad : Json)
    (hp : json_loads ("[" ++ completion) = some (Json.arr (pre ++ bad :: rest)))
    (hpre : ∀ e ∈ pre, isObj e = true ∧ hasAllFields e = true)
    (hbad : isObj bad = false) :
    AnalyzeEmails.request_message completion = Except.error PyErr.typeError := by
  simp only [AnalyzeEmails.request_message, hp, AnalyzeEmails.pyIter, exbind_ok,
    mapM_mkSummary_typeError pre rest bad hpre hbad]

/-- Claim C10 (witness): a lone numeric element propagates TypeError. -/
theorem c10_type_error_propagates_witness :
    AnalyzeEmails.request_message "5]" = Except.error PyErr.typeError :=
  c10_type_error_propagates "5]" [] [] (Json.num "5") rfl (by simp) rfl

/-- Claim C4 (counterexample).  A successful payload with one summary
element carries the element keys subject, date, from_, summary: the
dataclass field name `from_` is serialized as-is by dataclasses.asdict, so
the key `from` required by the claim is absent. -/
theorem c4_counterexample :
    AnalyzeEmails.Message.asdict
        ⟨true, [⟨Json.str "s", Json.str "d", Json.str "f", Json.str "m"⟩],
          none⟩ =
        Json.obj
          [("success", Json.bool true),
           ("emails",
            Json.arr
              [Json.obj
                 [("subject", Json.str "s"), ("date", Json.str "d"),
                  ("from_", Json.str "f"), ("summary", Json.str "m")]])] ∧
      ("from" ∉ ["subject", "date", "from_", "summary"]) :=
  ⟨rfl, by decide⟩

/-- Claim C4 (amended).  Every outcome payload contains the boolean key
`success` and exactly one of the keys `emails` and `error`: when success
is true, `emails` is present (a list whose every element is an object with
exactly the keys subject, date, from_, summary) and `error` is absent;
when success is false, `error` is present and `emails` is absent. -/
theorem c4_payload_shape (m : AnalyzeEmails.Message) :
    (m.success = true →
      AnalyzeEmails.Message.asdict m =
          Json.obj
            [("success", Json.bool true),
             ("emails",
              Json.arr (m.emails.map AnalyzeEmails.EmailSummary.asdict))] ∧
        ∀ e ∈ m.emails,
          objKeys (AnalyzeEmails.EmailSummary.asdict e) =
            ["subject", "date", "from_", "summary"]) ∧
    (m.success = false →
      ∃ v, AnalyzeEmails.Message.asdict m =
        Json.obj [("success", Json.bool false), ("error", v)]) := by
  obtain ⟨success, emails, error⟩ := m
  cases success with
  | true =>
    refine ⟨fun _ => ⟨rfl, fun e _ => rfl⟩, fun h => by simp at h⟩
  | false =>
    refine ⟨fun h => by simp at h, fun _ => ?_⟩
    cases error with
    | none => exact ⟨Json.null, rfl⟩
    | some s => exact ⟨Json.str s, rfl⟩

/-- Claim C4 (witness): shape of a concrete failure payload. -/
theorem c4_payload_shape_witness :
    ∃ v, AnalyzeEmails.Message.asdict ⟨false, [], some "boom"⟩ =
      Json.obj [("success", Json.bool false), ("error", v)] :=
  (c4_payload_shape ⟨false, [], some "boom"⟩).2 rfl

/-- Claim C3 (counterexample).  render is not total on arbitrary strings:
a Success item whose date field is the string "x" makes generate_payload
raise ValueError inside datetime.fromisoformat. -/
theorem c3_counterexample :
    SlackNotification.generate_payload [⟨"s", "x", "f", "m"⟩] =
      Except.error PyErr.valueError :=
  rfl

/-- Claim C3 (amended).  render is total on every Failure outcome, and on
every Success outcome whose items carry arbitrary subject, sender and
summary strings and a date string accepted by the ISO-8601 parser: under
that restriction generate_payload always returns a rendered message, and
the failure renderer send_error_message is a total pure function
unconditionally. -/
theorem c3_render_total (emails : List SlackNotification.EmailSummary)
    (h : ∀ e ∈ emails, (fromisoformat e.date).isSome = true) :
    (∃ j, SlackNotification.generate_payload emails = Except.ok j) ∧
      ∀ err : String, ∃ j, SlackNotification.errorPayload err = j := by
  refine ⟨?_, fun err => ⟨_, rfl⟩⟩
  suffices hm : ∃ ls, emails.mapM SlackNotification.emailBlocks = Except.ok ls by
    obtain ⟨ls, hls⟩ := hm
    refine ⟨Json.obj
      [("blocks", Json.arr (SlackNotification.headerBlock :: ls.flatten))], ?_⟩
    simp only [SlackNotification.generate_payload, hls, exbind_ok]
  induction emails with
  | nil => exact ⟨[], rfl⟩
  | cons x rest ih =>
    have hx := h x (by simp)
    obtain ⟨dt, hdt⟩ := Option.isSome_iff_exists.mp hx
    obtain ⟨ls, hls⟩ := ih (fun e he => h e (List.mem_cons_of_mem _ he))
    rw [List.mapM_cons]
    simp only [SlackNotification.emailBlocks, hdt, exbind_ok, hls]
    exact ⟨_, rfl⟩

/-- Claim C3 (witness): a Success item with a valid ISO date renders. -/
theorem c3_render_total_witness :
    (∃ j, SlackNotification.generate_payload
        [⟨"s", "2024-01-01T10:30:00+09:00", "f", "m"⟩] = Except.ok j) ∧
      ∀ err : String, ∃ j, SlackNotification.errorPayload err = j :=
  c3_render_total [⟨"s", "2024-01-01T10:30:00+09:00", "f", "m"⟩]
    (by intro e he; rw [List.mem_singleton] at he; subst he; rfl)

/-- Claim C5 (confirmed).  Given a non-empty day partition read and a
summarizer result, the handler publishes the outcome if and only if it is
a Failure or a Success with at least one item; a Success with zero items
results in no publication. -/
theorem c5_publish_iff (store : S3Store) (path completion : String)
    (emails : List AnalyzeEmails.Email) (msg : AnalyzeEmails.Message)
    (hg : AnalyzeEmails.get_emails store path = Except.ok emails)
    (hne : emails ≠ [])
    (hm : AnalyzeEmails.request_message completion = Except.ok msg) :
    (AnalyzeEmails.lambda_handler store path completion = Except.ok [msg] ↔
      msg.success = false ∨ msg.emails ≠ []) ∧
    (msg.success = true ∧ msg.emails = [] →
      AnalyzeEmails.lambda_handler store path completion = Except.ok []) := by
  have hne2 : emails.isEmpty = false := by
    cases emails with
    | nil => exact absurd rfl hne
    | cons a l => rfl
  have hred : AnalyzeEmails.lambda_handler store path completion =
      if msg.success && msg.emails.isEmpty then Except.ok []
      else Except.ok [msg] := by
    simp only [AnalyzeEmails.lambda_handler, hg, exbind_ok, hne2,
      Bool.false_eq_true, if_false, hm]
  rw [hred]
  cases hs : msg.success with
  | false => simp [hs]
  | true =>
    cases hb : msg.emails with
    | nil => simp [hs, hb]
    | cons a l => simp [hs, hb]

/-- Claim C5 (witness): a one-record day with a well-formed one-element
completion publishes exactly that Success outcome. -/
theorem c5_publish_iff_witness :
    AnalyzeEmails.lambda_handler
        [("emails/json/2024/1/2/a.json",
          Json.obj
            [("id", Json.str "a"), ("subject", Json.str "s"),
             ("from", Json.str "f"),
             ("date", Json.str "2024-01-02T10:30:00+09:00"),
             ("body", Json.str "b")])]
        "emails/json/2024/1/2/"
        "\x7b\"subject\":\"s\",\"date\":\"d\",\"from\":\"f\",\"summary\":\"m\"\x7d]" =
      Except.ok
        [⟨true, [⟨Json.str "s", Json.str "d", Json.str "f", Json.str "m"⟩],
          none⟩] :=
  (c5_publish_iff
      [("emails/json/2024/1/2/a.json",
        Json.obj
          [("id", Json.str "a"), ("subject", Json.str "s"),
           ("from", Json.str "f"),
           ("date", Json.str "2024-01-02T10:30:00+09:00"),
           ("body", Json.str "b")])]
      "emails/json/2024/1/2/"
      "\x7b\"subject\":\"s\",\"date\":\"d\",\"from\":\"f\",\"summary\":\"m\"\x7d]"
      [⟨Json.str "a", Json.str "s", Json.str "f",
        ⟨2024, 1, 2, 10, 30, 0, 0, some 540⟩, Json.str "b"⟩]
      ⟨true, [⟨Json.str "s", Json.str "d", Json.str "f", Json.str "m"⟩], none⟩
      rfl (by simp) rfl).1.mpr (Or.inr (by simp))

theorem bodyLoop_all_html (parts : List EmailParser.RawPart)
    (p : EmailParser.RawPart) :
    ∀ acc, (∀ q ∈ parts, q.ctype = "text/html") → parts.getLast? = some p →
      EmailParser.bodyLoop parts acc = some (EmailParser.strip_html p.text) := by
  induction parts with
  | nil => intro acc hall hlast; simp at hlast
  | cons q rest ih =>
    intro acc hall hlast
    have hq : q.ctype = "text/html" := hall q (by simp)
    cases rest with
    | nil =>
      simp only [List.getLast?_singleton] at hlast
      obtain rfl := Option.some.inj hlast
      simp [EmailParser.bodyLoop, hq]
    | cons r rs =>
      rw [List.getLast?_cons_cons] at hlast
      simp only [EmailParser.bodyLoop, hq]
      simpa using ih (some (EmailParser.strip_html q.text))
        (fun x hx => hall x (List.mem_cons_of_mem _ hx)) hlast

/-- Claim C6 (confirmed).  A multipart message whose parts are all
text/html bodies gets as body the markup-stripped text of the last part in
declaration order: every html match overwrites the selection and the scan
is not short-circuited. -/
theorem c6_last_html_wins (parts : List EmailParser.RawPart)
    (p : EmailParser.RawPart)
    (hall : ∀ q ∈ parts, q.ctype = "text/html")
    (hlast : parts.getLast? = some p) :
    EmailParser.get_email_body (EmailParser.MimeContent.multipart parts) =
      Except.ok (EmailParser.strip_html p.text) := by
  simp only [EmailParser.get_email_body,
    bodyLoop_all_html parts p none hall hlast]

/-- Claim C6 (witness): with two html parts the second one is selected and
stripped. -/
theorem c6_last_html_wins_witness :
    EmailParser.get_email_body
        (EmailParser.MimeContent.multipart
          [⟨"text/html", "<i>a</i>"⟩, ⟨"text/html", "<b>z</b>"⟩]) =
      Except.ok "z" :=
  c6_last_html_wins _ ⟨"text/html", "<b>z</b>"⟩ (by decide) rfl

theorem bodyLoop_first_plain (parts : List EmailParser.RawPart)
    (p : EmailParser.RawPart) :
    ∀ acc, parts.find? (fun q => q.ctype == "text/plain") = some p →
      EmailParser.bodyLoop parts acc = some p.text := by
  induction parts with
  | nil => intro acc hfind; simp at hfind
  | cons q rest ih =>
    intro acc hfind
    cases hq : (q.ctype == "text/plain") with
    | true =>
      simp only [List.find?, hq] at hfind
      obtain rfl := Option.some.inj hfind
      have hq2 : q.ctype = "text/plain" := by simpa using hq
      simp [EmailParser.bodyLoop, hq2]
    | false =>
      simp only [List.find?, hq] at hfind
      have hq2 : q.ctype ≠ "text/plain" := by simpa using hq
      simp only [EmailParser.bodyLoop, if_neg hq2]
      by_cases hh : q.ctype = "text/html"
      · rw [if_pos hh]
        exact ih _ hfind
      · rw [if_neg hh]
        exact ih _ hfind

/-- Claim C7 (confirmed).  A raw message with a parsable date header that
contains a text/plain part (the single top-level body or the first such
part among the multipart parts) extracts with a body equal to that part's
decoded text, wherever any text/html parts appear. -/
theorem c7_plain_body_wins (eid : String) (raw : EmailParser.RawEmail)
    (tzOff : Int) (hdrS : String) (d : DateTime) (t : String)
    (hs : raw.dateHeader = some hdrS)
    (hd : parsedate_to_datetime hdrS = some d)
    (ht : EmailParser.firstPlainText raw.content = some t) :
    EmailParser.read_email eid raw tzOff =
      Except.ok ⟨eid, raw.subject, raw.from_, astimezone d tzOff, t⟩ := by
  have hbody : EmailParser.get_email_body raw.content = Except.ok t := by
    cases hc : raw.content with
    | single ct txt =>
      rw [hc] at ht
      by_cases hp : ct = "text/plain"
      · simp only [EmailParser.firstPlainText, if_pos hp] at ht
        obtain rfl := Option.some.inj ht
        simp [EmailParser.get_email_body, hp]
      · simp [EmailParser.firstPlainText, if_neg hp] at ht
    | multipart parts =>
      rw [hc] at ht
      simp only [EmailParser.firstPlainText, Option.map_eq_some'] at ht
      obtain ⟨q, hfind, htext⟩ := ht
      simp only [EmailParser.get_email_body,
        bodyLoop_first_plain parts q none hfind, htext]
  simp only [EmailParser.read_email, EmailParser.get_email_date, hs, hd,
    exbind_ok, hbody]

/-- Claim C7 (witness): the plain part wins over surrounding html parts. -/
theorem c7_plain_body_wins_witness :
    EmailParser.read_email "id"
        ⟨"subj", "sender", some "Mon, 1 Jan 2024 10:30:00 +0000",
          EmailParser.MimeContent.multipart
            [⟨"text/html", "<i>a</i>"⟩, ⟨"text/plain", "hello"⟩,
             ⟨"text/html", "<b>z</b>"⟩]⟩ 540 =
      Except.ok
        ⟨"id", "subj", "sender",
          astimezone ⟨2024, 1, 1, 10, 30, 0, 0, some 0⟩ 540, "hello"⟩ :=
  c7_plain_body_wins "id" _ 540 "Mon, 1 Jan 2024 10:30:00 +0000"
    ⟨2024, 1, 1, 10, 30, 0, 0, some 0⟩ "hello" rfl rfl rfl

/-- Claim C8 (counterexample).  A zone-less date header such as
"1 Jan 2024 10:30:00" is not derivable from the standard date-header
grammar (RFC 5322 makes the zone mandatory), so the claim places it in
the MalformedMessageError case; but the lenient stdlib parser accepts it
as a naive datetime, astimezone converts it from the system-local UTC of
the runtime, and extraction succeeds with a record instead of failing. -/
theorem c8_counterexample :
    parsedate_to_datetime "1 Jan 2024 10:30:00" =
        some ⟨2024, 1, 1, 10, 30, 0, 0, none⟩ ∧
      EmailParser.read_email "id"
          ⟨"subj", "sender", some "1 Jan 2024 10:30:00",
            EmailParser.MimeContent.single "text/plain" "hi"⟩ 540 =
        Except.ok
          ⟨"id", "subj", "sender", ⟨2024, 1, 1, 19, 30, 0, 0, some 540⟩,
            "hi"⟩ :=
  ⟨rfl, rfl⟩

/-- Claim C8 (amended).  A raw message whose date header is absent or
rejected by the lenient stdlib date parser (email.utils
parsedate_to_datetime, which also accepts zone-less headers as naive
datetimes and applies the datetime range checks) fails extraction with an
error (MalformedMessageError, raised as TypeError or ValueError) and
produces no record; for a header that parser accepts, any produced record
carries a timestamp equal to the parsed instant converted to the
configured timezone. -/
theorem c8_date_handling (eid : String) (raw : EmailParser.RawEmail)
    (tzOff : Int) :
    ((raw.dateHeader = none ∨
        ∃ s, raw.dateHeader = some s ∧ parsedate_to_datetime s = none) →
      ∃ err, EmailParser.read_email eid raw tzOff = Except.error err) ∧
    (∀ s d, raw.dateHeader = some s → parsedate_to_datetime s = some d →
      ∀ e, EmailParser.read_email eid raw tzOff = Except.ok e →
        e.date = astimezone d tzOff) := by
  constructor
  · rintro (h | ⟨s, hs, hp⟩)
    · refine ⟨PyErr.typeError, ?_⟩
      simp only [EmailParser.read_email, EmailParser.get_email_date, h]
      rfl
    · refine ⟨PyErr.valueError, ?_⟩
      simp only [EmailParser.read_email, EmailParser.get_email_date, hs, hp]
      rfl
  · intro s d hs hd e hok
    simp only [EmailParser.read_email, EmailParser.get_email_date, hs, hd,
      exbind_ok] at hok
    cases hb : EmailParser.get_email_body raw.content with
    | error err =>
      rw [hb, exbind_err] at hok
      exact absurd hok (by simp)
    | ok b =>
      rw [hb, exbind_ok] at hok
      injection hok with hrec
      subst hrec
      rfl

/-- Claim C8 (witness): a concrete header parses and the record timestamp
is the converted instant. -/
theorem c8_date_handling_witness :
    (⟨"id", "subj", "sender", ⟨2024, 1, 1, 19, 30, 0, 0, some 540⟩, "hi"⟩ :
        EmailParser.Email).date =
      astimezone ⟨2024, 1, 1, 10, 30, 0, 0, some 0⟩ 540 :=
  (c8_date_handling "id"
      ⟨"subj", "sender", some "Mon, 1 Jan 2024 10:30:00 +0000",
        EmailParser.MimeContent.single "text/plain" "hi"⟩ 540).2
    "Mon, 1 Jan 2024 10:30:00 +0000" ⟨2024, 1, 1, 10, 30, 0, 0, some 0⟩ rfl rfl
    ⟨"id", "subj", "sender", ⟨2024, 1, 1, 19, 30, 0, 0, some 540⟩, "hi"⟩ rfl

theorem digitVal?_digitChar (d : Nat) (h : d < 10) :
    digitVal? (digitChar d) = some d := by
  interval_cases d <;> rfl

theorem parse2_digits2 (n : Nat) (h : n < 100) :
    ∀ rest, parse2 (digits2 n ++ rest) = some (n, rest) := by
  intro rest
  have h1 : n / 10 < 10 := by omega
  have h2 : n % 10 < 10 := by omega
  have e : n / 10 * 10 + n % 10 = n := by omega
  simp only [digits2, List.cons_append, List.nil_append, parse2,
    digitVal?_digitChar _ h1, digitVal?_digitChar _ h2, e]

theorem parse2_digits2_nil (n : Nat) (h : n < 100) :
    parse2 (digits2 n) = some (n, []) := by
  have := parse2_digits2 n h []
  simpa using this

theorem parse4_digits4 (n : Nat) (h : n < 10000) :
    ∀ rest, parse4 (digits4 n ++ rest) = some (n, rest) := by
  intro rest
  have h1 : n / 1000 < 10 := by omega
  have h2 : n / 100 % 10 < 10 := by omega
  have h3 : n / 10 % 10 < 10 := by omega
  have h4 : n % 10 < 10 := by omega
  have e : (n / 1000) * 1000 + (n / 100 % 10) * 100 + (n / 10 % 10) * 10 +
      n % 10 = n := by omega
  simp only [digits4, List.cons_append, List.nil_append, parse4,
    digitVal?_digitChar _ h1, digitVal?_digitChar _ h2,
    digitVal?_digitChar _ h3, digitVal?_digitChar _ h4, e]

theorem parse6_digits6 (n : Nat) (h : n < 1000000) :
    ∀ rest, parse6 (digits6 n ++ rest) = some (n, rest) := by
  intro rest
  have h1 : n / 100000 < 10 := by omega
  have h2 : n / 10000 % 10 < 10 := by omega
  have h3 : n / 1000 % 10 < 10 := by omega
  have h4 : n / 100 % 10 < 10 := by omega
  have h5 : n / 10 % 10 < 10 := by omega
  have h6 : n % 10 < 10 := by omega
  have e : (n / 100000) * 100000 + (n / 10000 % 10) * 10000 +
      (n / 1000 % 10) * 1000 + (n / 100 % 10) * 100 + (n / 10 % 10) * 10 +
      n % 10 = n := by omega
  simp only [digits6, List.cons_append, List.nil_append, parse6,
    digitVal?_digitChar _ h1, digitVal?_digitChar _ h2,
    digitVal?_digitChar _ h3, digitVal?_digitChar _ h4,
    digitVal?_digitChar _ h5, digitVal?_digitChar _ h6, e]

theorem expectChar_cons (c : Char) (rest : List Char) :
    expectChar c (c :: rest) = some rest := by
  simp [expectChar]

theorem parse6_digits6_nil (n : Nat) (h : n < 1000000) :
    parse6 (digits6 n) = some (n, []) := by
  have := parse6_digits6 n h []
  simpa using this

theorem obind_some {α β : Type} (a : α) (f : α → Option β) :
    (some a >>= f) = f a := rfl

theorem daysInMonth_le (y m : Nat) : daysInMonth y m ≤ 31 := by
  unfold daysInMonth
  split_ifs <;> omega

theorem validISO_of_validDT (dt : DateTime) (hv : validDT dt) :
    validISO dt = true := by
  obtain ⟨y, mo, d, h, mi, s, us, off⟩ := dt
  simp only [validDT] at hv
  obtain ⟨hy1, hy2, hm1, hm2, hd1, hd2, hh, hmi, hsec, hus, hoff⟩ := hv
  simp [validISO, hy1, hy2, hm1, hm2, hd1, hd2, hh, hmi, hsec, hoff]

theorem fromisoCore_iso (dt : DateTime) (hv : validDT dt) :
    fromisoCharsCore (isoformatChars dt) = some dt := by
  obtain ⟨y, mo, d, h, mi, s, us, off⟩ := dt
  simp only [validDT] at hv
  obtain ⟨hy1, hy2, hm1, hm2, hd1, hd2, hh, hmi, hsec, hus, hoff⟩ := hv
  have hd31 : d ≤ 31 := le_trans hd2 (daysInMonth_le y mo)
  by_cases hus0 : us = 0
  · subst hus0
    cases off with
    | none =>
      simp only [isoformatChars, fromisoCharsCore, List.cons_append,
        List.nil_append, List.append_nil, List.append_assoc,
        parse4_digits4 y (by omega), parse2_digits2 mo (by omega),
        parse2_digits2 d (by omega), parse2_digits2 h (by omega),
        parse2_digits2 mi (by omega), parse2_digits2_nil s (by omega),
        expectChar_cons, obind_some, reduceIte, Char.reduceEq, true_or, false_or, or_true, or_false, Char.reduceEq]
    | some o =>
      have hoA : o.natAbs ≤ 1439 := hoff
      by_cases ho : (0 : Int) ≤ o
      · have eoff : ((o.natAbs / 60 * 60 + o.natAbs % 60 : Nat) : Int) = o := by
          omega
        simp only [isoformatChars, fromisoCharsCore, List.cons_append,
          List.nil_append, List.append_nil, List.append_assoc,
          parse4_digits4 y (by omega), parse2_digits2 mo (by omega),
          parse2_digits2 d (by omega), parse2_digits2 h (by omega),
          parse2_digits2 mi (by omega), parse2_digits2 s (by omega),
          parse2_digits2 (o.natAbs / 60) (by omega),
          parse2_digits2_nil (o.natAbs % 60) (by omega),
          expectChar_cons, obind_some, reduceIte, Char.reduceEq, true_or, false_or, or_true, or_false,
          if_pos ho, eoff]
      · have eoff : -((o.natAbs / 60 * 60 + o.natAbs % 60 : Nat) : Int) = o := by
          omega
        simp only [isoformatChars, fromisoCharsCore, List.cons_append,
          List.nil_append, List.append_nil, List.append_assoc,
          parse4_digits4 y (by omega), parse2_digits2 mo (by omega),
          parse2_digits2 d (by omega), parse2_digits2 h (by omega),
          parse2_digits2 mi (by omega), parse2_digits2 s (by omega),
          parse2_digits2 (o.natAbs / 60) (by omega),
          parse2_digits2_nil (o.natAbs % 60) (by omega),
          expectChar_cons, obind_some, reduceIte, Char.reduceEq, true_or, false_or, or_true, or_false,
          if_neg ho, eoff]
  · cases off with
    | none =>
      simp only [isoformatChars, fromisoCharsCore, List.cons_append,
        List.nil_append, List.append_nil, List.append_assoc,
        parse4_digits4 y (by omega), parse2_digits2 mo (by omega),
        parse2_digits2 d (by omega), parse2_digits2 h (by omega),
        parse2_digits2 mi (by omega), parse2_digits2 s (by omega),
        parse6_digits6_nil us (by omega),
        expectChar_cons, obind_some, reduceIte, Char.reduceEq, true_or, false_or, or_true, or_false, if_neg hus0,
        ]
    | some o =>
      have hoA : o.natAbs ≤ 1439 := hoff
      by_cases ho : (0 : Int) ≤ o
      · have eoff : ((o.natAbs / 60 * 60 + o.natAbs % 60 : Nat) : Int) = o := by
          omega
        simp only [isoformatChars, fromisoCharsCore, List.cons_append,
          List.nil_append, List.append_nil, List.append_assoc,
          parse4_digits4 y (by omega), parse2_digits2 mo (by omega),
          parse2_digits2 d (by omega), parse2_digits2 h (by omega),
          parse2_digits2 mi (by omega), parse2_digits2 s (by omega),
          parse6_digits6 us (by omega),
          parse2_digits2 (o.natAbs / 60) (by omega),
          parse2_digits2_nil (o.natAbs % 60) (by omega),
          expectChar_cons, obind_some, reduceIte, Char.reduceEq, true_or, false_or, or_true, or_false, if_neg hus0,
          if_pos ho, eoff]
      · have eoff : -((o.natAbs / 60 * 60 + o.natAbs % 60 : Nat) : Int) = o := by
          omega
        simp only [isoformatChars, fromisoCharsCore, List.cons_append,
          List.nil_append, List.append_nil, List.append_assoc,
          parse4_digits4 y (by omega), parse2_digits2 mo (by omega),
          parse2_digits2 d (by omega), parse2_digits2 h (by omega),
          parse2_digits2 mi (by omega), parse2_digits2 s (by omega),
          parse6_digits6 us (by omega),
          parse2_digits2 (o.natAbs / 60) (by omega),
          parse2_digits2_nil (o.natAbs % 60) (by omega),
          expectChar_cons, obind_some, reduceIte, Char.reduceEq, true_or, false_or, or_true, or_false, if_neg hus0,
          if_neg ho, eoff]


/-- Round trip of the ISO-8601 serialization: parsing the serialized form
of a valid datetime returns it unchanged. -/
theorem fromiso_iso (dt : DateTime) (hv : validDT dt) :
    fromisoformat (isoformat dt) = some dt := by
  have h1 : fromisoCharsCore (isoformatChars dt) = some dt :=
    fromisoCore_iso dt hv
  have h2 : validISO dt = true := validISO_of_validDT dt hv
  show fromisoChars (isoformatChars dt) = some dt
  simp only [fromisoChars, h1, obind_some, h2, reduceIte]

theorem listStarts_append (l m : List Char) : listStarts l (l ++ m) = true := by
  induction l with
  | nil => rfl
  | cons c cs ih => simp [listStarts, ih]

/-- Claim C9 (confirmed).  put of a record followed by listing its local
day returns a record equal to the original in all fields, the timestamp
surviving the ISO-8601 serialization and deserialization round trip (the
string fields come back wrapped as the JSON strings the stored document
carries). -/
theorem c9_roundtrip (base : String) (r : EmailParser.Email)
    (hv : validDT r.date) :
    AnalyzeEmails.get_emails (EmailParser.write_email base [] r)
        (EmailParser.dayPfx base r.date) =
      Except.ok
        [⟨Json.str r.id, Json.str r.subject, Json.str r.from_, r.date,
          Json.str r.body⟩] := by
  have hpfx : listStarts (EmailParser.dayPfx base r.date).data
      (EmailParser.emailKey base r).data = true :=
    listStarts_append (EmailParser.dayPfx base r.date).data
      (r.id ++ ".json").data
  have hstore : EmailParser.write_email base [] r =
      [(EmailParser.emailKey base r, EmailParser.emailDoc r)] := rfl
  rw [hstore]
  simp only [AnalyzeEmails.get_emails, list_objects_v2, keysWithPfx,
    List.filter_cons, List.filter_nil, hpfx, if_pos, List.map_cons,
    List.map_nil, List.mapM_cons, List.mapM_nil, get_object, List.find?,
    beq_self_eq_true, Option.map_some', AnalyzeEmails.parseStoredEmail,
    AnalyzeEmails.getField, EmailParser.emailDoc, jlookup, String.reduceEq,
    reduceIte, exbind_ok, fromiso_iso r.date hv]
  rfl

/-- Claim C9 (witness): a concrete record survives the store round trip. -/
theorem c9_roundtrip_witness :
    AnalyzeEmails.get_emails
        (EmailParser.write_email "emails/json" []
          ⟨"a", "s", "f", ⟨2024, 1, 2, 10, 30, 0, 0, some 540⟩, "b"⟩)
        (EmailParser.dayPfx "emails/json"
          ⟨2024, 1, 2, 10, 30, 0, 0, some 540⟩) =
      Except.ok
        [⟨Json.str "a", Json.str "s", Json.str "f",
          ⟨2024, 1, 2, 10, 30, 0, 0, some 540⟩, Json.str "b"⟩] :=
  c9_roundtrip "emails/json"
    ⟨"a", "s", "f", ⟨2024, 1, 2, 10, 30, 0, 0, some 540⟩, "b"⟩
    (by unfold validDT; decide)
